import Mathlib

/-!
Shallow embedding of `src/05-objects-tasks.js` (core-js-101, file 05):
the `Selector` class (fluent CSS-selector builder with duplicate and
ordering validation), the `cssSelectorBuilder` facade with its single
`result` slot, the `Rectangle` constructor and the `getJSON` / `fromJSON`
pair.  JavaScript strings are Lean `String`s; JS numbers are modeled as
`Int` (the source only constructs and multiplies them); a thrown `Error`
is modeled by the `error` branch of `Except`, carrying the error kind
and the state of the receiver at the moment of the throw.
-/

namespace ObjectsTasks

instance {ε α : Type} [DecidableEq ε] [DecidableEq α] : DecidableEq (Except ε α) := fun x y =>
  match x, y with
  | .ok a, .ok b =>
    if h : a = b then .isTrue (by rw [h]) else .isFalse (fun hh => h (Except.ok.inj hh))
  | .error a, .error b =>
    if h : a = b then .isTrue (by rw [h]) else .isFalse (fun hh => h (Except.error.inj hh))
  | .ok _, .error _ => .isFalse (fun hh => Except.noConfusion hh)
  | .error _, .ok _ => .isFalse (fun hh => Except.noConfusion hh)

/-- The two error messages stored in `Selector.errors`: `duplicate` for
"Element, id and pseudo-element should not occur more then one time inside
the selector" and `order` for "Selector parts should be arranged in the
following order: element, id, class, attribute, pseudo-class,
pseudo-element". -/
inductive SelError where
  | duplicate
  | order
deriving Repr, DecidableEq

/-- The `this.selectors` object literal of the `Selector` constructor:
seven list-valued keys, in the exact insertion order of the source
(`element, id, class, attr, pseudoClass, pseudoElement, combination`).
`class` is a Lean keyword, so that field is named `cls`. -/
structure Selectors where
  element : List String
  id : List String
  cls : List String
  attr : List String
  pseudoClass : List String
  pseudoElement : List String
  combination : List String
deriving Repr, DecidableEq

/-- The keys of `this.selectors`, as an enumerated type. -/
inductive SelectorKey where
  | element
  | id
  | cls
  | attr
  | pseudoClass
  | pseudoElement
  | combination
deriving Repr, DecidableEq

/-- `Object.keys(this.selectors).indexOf(selector)`: the position of a key
in the insertion order of the `selectors` object literal. -/
def SelectorKey.index : SelectorKey → Nat
  | .element => 0
  | .id => 1
  | .cls => 2
  | .attr => 3
  | .pseudoClass => 4
  | .pseudoElement => 5
  | .combination => 6

/-- `Object.values(this.selectors)`: the seven fragment lists in key
insertion order. -/
def Selectors.values (s : Selectors) : List (List String) :=
  [s.element, s.id, s.cls, s.attr, s.pseudoClass, s.pseudoElement, s.combination]

/-- Field lookup by key (used to state properties about the mapping). -/
def Selectors.get (s : Selectors) : SelectorKey → List String
  | .element => s.element
  | .id => s.id
  | .cls => s.cls
  | .attr => s.attr
  | .pseudoClass => s.pseudoClass
  | .pseudoElement => s.pseudoElement
  | .combination => s.combination

/-- A `Selector` instance: its only data is the `selectors` mapping (the
`errors` field of the constructor holds two constant strings, represented
here by the `SelError` kinds). -/
structure Selector where
  selectors : Selectors
deriving Repr, DecidableEq

/-- `new Selector()`: every fragment list starts empty. -/
def Selector.new : Selector :=
  ⟨⟨[], [], [], [], [], [], []⟩⟩

/-- `Selector.prototype.checkOrder(selector)`:
`Object.values(this.selectors).filter((elem, index) => elem.length > 0 && index > selectorIndex).length !== 0`. -/
def Selector.checkOrder (self : Selector) (selector : SelectorKey) : Bool :=
  let selectorIndex := selector.index
  let len := (self.selectors.values.enum.filter
    (fun p => decide (0 < p.2.length) && decide (selectorIndex < p.1))).length
  len != 0

/-- `Selector.prototype.element(value)`: throws the duplicate error if an
element fragment exists, then the order error if `checkOrder` fails, then
pushes `value` verbatim.  The error branch carries the receiver state at
the moment of the throw (both throws happen before the push). -/
def Selector.element (self : Selector) (value : String) :
    Except (SelError × Selector) Selector :=
  if self.selectors.element.length != 0 then .error (.duplicate, self)
  else if self.checkOrder .element then .error (.order, self)
  else .ok ⟨{ self.selectors with element := self.selectors.element ++ [value] }⟩

/-- `Selector.prototype.id(value)`: duplicate check, order check, then
pushes `"#" + value`. -/
def Selector.id (self : Selector) (value : String) :
    Except (SelError × Selector) Selector :=
  if self.selectors.id.length != 0 then .error (.duplicate, self)
  else if self.checkOrder .id then .error (.order, self)
  else .ok ⟨{ self.selectors with id := self.selectors.id ++ ["#" ++ value] }⟩

/-- `Selector.prototype.class(value)` (named `cls` here: `class` is a Lean
keyword): order check only, then pushes `"." + value`. -/
def Selector.cls (self : Selector) (value : String) :
    Except (SelError × Selector) Selector :=
  if self.checkOrder .cls then .error (.order, self)
  else .ok ⟨{ self.selectors with cls := self.selectors.cls ++ ["." ++ value] }⟩

/-- `Selector.prototype.attr(value)`: order check only, then pushes
`"[" + value + "]"`. -/
def Selector.attr (self : Selector) (value : String) :
    Except (SelError × Selector) Selector :=
  if self.checkOrder .attr then .error (.order, self)
  else .ok ⟨{ self.selectors with attr := self.selectors.attr ++ ["[" ++ value ++ "]"] }⟩

/-- `Selector.prototype.pseudoClass(value)`: order check only, then pushes
`":" + value`. -/
def Selector.pseudoClass (self : Selector) (value : String) :
    Except (SelError × Selector) Selector :=
  if self.checkOrder .pseudoClass then .error (.order, self)
  else .ok ⟨{ self.selectors with pseudoClass := self.selectors.pseudoClass ++ [":" ++ value] }⟩

/-- `Selector.prototype.pseudoElement(value)`: duplicate check, order
check, then pushes `"::" + value`. -/
def Selector.pseudoElement (self : Selector) (value : String) :
    Except (SelError × Selector) Selector :=
  if self.selectors.pseudoElement.length != 0 then .error (.duplicate, self)
  else if self.checkOrder .pseudoElement then .error (.order, self)
  else .ok ⟨{ self.selectors with
      pseudoElement := self.selectors.pseudoElement ++ ["::" ++ value] }⟩

/-- `Selector.prototype.stringify()`:
`Object.values(this.selectors).reduce((accumulator, currentValue) => accumulator + currentValue.join(''))`.
`reduce` without an initial value starts from the first array; the first
`+` coerces that array to a string with JavaScript's `Array.prototype.toString`,
which is `join(',')` — hence the `String.intercalate ","` on the first
list (indistinguishable from `join('')` whenever the element list holds at
most one entry). -/
def Selector.stringify (self : Selector) : String :=
  match self.selectors.values with
  | [] => ""
  | first :: rest =>
    rest.foldl (fun accumulator currentValue => accumulator ++ String.join currentValue)
      (String.intercalate "," first)

/-- One builder-method call with its argument (the six public mutators of
`Selector`; `checkOrder` and `stringify` are not mutators). -/
inductive Call where
  | element (value : String)
  | id (value : String)
  | cls (value : String)
  | attr (value : String)
  | pseudoClass (value : String)
  | pseudoElement (value : String)
deriving Repr, DecidableEq

/-- The `selectors` key a call writes to. -/
def Call.key : Call → SelectorKey
  | .element _ => .element
  | .id _ => .id
  | .cls _ => .cls
  | .attr _ => .attr
  | .pseudoClass _ => .pseudoClass
  | .pseudoElement _ => .pseudoElement

/-- Dispatch one call on a builder. -/
def Selector.apply (self : Selector) : Call → Except (SelError × Selector) Selector
  | .element v => self.element v
  | .id v => self.id v
  | .cls v => self.cls v
  | .attr v => self.attr v
  | .pseudoClass v => self.pseudoClass v
  | .pseudoElement v => self.pseudoElement v

/-- Run a sequence of chained calls, stopping at the first thrown error
(in JavaScript the exception propagates out of the chain). -/
def Selector.runFrom (self : Selector) : List Call → Except (SelError × Selector) Selector
  | [] => .ok self
  | c :: cs =>
    match self.apply c with
    | .ok s => s.runFrom cs
    | .error e => .error e

/-- `cssSelectorBuilder`'s own state: the `result` property written by
`combine` and read by the facade's `stringify`.  `none` models the
JavaScript `undefined` of a property that was never assigned. -/
structure CssSelectorBuilder where
  result : Option String
deriving Repr, DecidableEq

/-- The `cssSelectorBuilder` object literal as initially exported: no
`result` property has been assigned yet. -/
def cssSelectorBuilder : CssSelectorBuilder := ⟨none⟩

/-- An operand accepted by `combine`: anything exposing `stringify()`.  In
this file that is a `Selector` chain or the facade itself (the facade is
passed as an operand by nested `combine` calls, see the doc example in the
source). -/
inductive Stringifiable where
  | sel (s : Selector)
  | facade (b : CssSelectorBuilder)
deriving Repr, DecidableEq

/-- `operand.stringify()`: a `Selector` renders its fragments; the facade
returns its `result` property (`none` = `undefined` when absent). -/
def Stringifiable.stringify : Stringifiable → Option String
  | .sel s => some s.stringify
  | .facade b => b.result

/-- JavaScript template-literal interpolation: a string interpolates
verbatim and `undefined` interpolates as `"undefined"`. -/
def interpolate : Option String → String
  | some s => s
  | none => "undefined"

/-- `cssSelectorBuilder.combine(selector1, combinator, selector2)`:
assigns `` `${selector1.stringify()} ${combinator} ${selector2.stringify()}` ``
to `this.result` (both operands are rendered before the slot is
overwritten: the template literal on the right-hand side is evaluated
first) and returns `this`, i.e. the facade carrying the new slot. -/
def CssSelectorBuilder.combine (self : CssSelectorBuilder) (selector1 : Stringifiable)
    (combinator : String) (selector2 : Stringifiable) : CssSelectorBuilder :=
  { self with
    result := some (interpolate selector1.stringify ++ " " ++ combinator ++ " "
      ++ interpolate selector2.stringify) }

/-- `cssSelectorBuilder.stringify()`: returns `this.result` unchecked
(`none` = `undefined` when `combine` was never called). -/
def CssSelectorBuilder.stringify (self : CssSelectorBuilder) : Option String :=
  self.result

/-- `function Rectangle(width, height)`: stores both parameters as own
properties; JS numbers are modeled as `Int`. -/
structure Rectangle where
  width : Int
  height : Int
deriving Repr, DecidableEq

/-- The `getArea` arrow function installed by the constructor:
`() => this.width * this.height`. -/
def Rectangle.getArea (self : Rectangle) : Int :=
  self.width * self.height

/-- `Selector.prototype.stringify()` viewed as a method call on the
receiver: the pair of the returned string and the post-call receiver
state.  The body of the source method contains no assignment — it only
folds over `Object.values(this.selectors)` — so the receiver is returned
unchanged. -/
def Selector.stringifyCall (self : Selector) : String × Selector :=
  (self.stringify, self)

/-- Spec-side rendering of a single call's stored fragment (§4.1 of the
spec): element verbatim, id `"#"+value`, class `"."+value`, attribute
`"["+value+"]"`, pseudo-class `":"+value`, pseudo-element `"::"+value`. -/
def specFragment : Call → String
  | .element v => v
  | .id v => "#" ++ v
  | .cls v => "." ++ v
  | .attr v => "[" ++ v ++ "]"
  | .pseudoClass v => ":" ++ v
  | .pseudoElement v => "::" ++ v

/-- Spec-side view of one category's stored fragments after a call
sequence: the fragments of the calls writing that category, in call
order. -/
def specCategory (cs : List Call) (k : SelectorKey) : List String :=
  (cs.filter (fun c => decide (c.key = k))).map specFragment

/-- Spec-side `stringify` (§4.1/§8): concatenation, in canonical category
order, of all fragments of all categories, each category's fragments
joined in call order, with no separators anywhere. -/
def specStringify (cs : List Call) : String :=
  String.join (specCategory cs .element)
    ++ String.join (specCategory cs .id)
    ++ String.join (specCategory cs .cls)
    ++ String.join (specCategory cs .attr)
    ++ String.join (specCategory cs .pseudoClass)
    ++ String.join (specCategory cs .pseudoElement)

/-- The six canonical fragment categories, in canonical order (§3 of the
spec; the internal `combination` key is not one of them). -/
def canonicalKeys : List SelectorKey :=
  [.element, .id, .cls, .attr, .pseudoClass, .pseudoElement]

/-- The order check as the claim words it: the write fails exactly when
some category of strictly greater canonical index already holds at least
one stored fragment. -/
def specOrderViolation (s : Selectors) (k : SelectorKey) : Bool :=
  canonicalKeys.any (fun j => decide (k.index < j.index) && decide (0 < (s.get j).length))

/-- The duplicate rule: a call is duplicate-blocked when it writes one of
the three singleton categories (element, id, pseudo-element) and that
category already holds a fragment. -/
def dupBlocked (s : Selectors) : Call → Bool
  | .element _ => s.element.length != 0
  | .id _ => s.id.length != 0
  | .pseudoElement _ => s.pseudoElement.length != 0
  | _ => false

/-- Modelled from the spec: the "plain structured values" of §6 — numbers,
strings, booleans, null, ordered sequences, string-keyed mappings.
JavaScript numbers are modeled as `Int` (floating point is out of
scope). -/
inductive JsValue where
  | null
  | bool (b : Bool)
  | num (n : Int)
  | str (s : String)
  | arr (xs : List JsValue)
  | obj (fields : List (String × JsValue))

/-- Modelled from the spec: one lexical token of the serialized JSON text.
`JSON.stringify` / `JSON.parse` are platform built-ins, not repository
code; §6 specifies them only as an inverse-compatible Serialize /
Deserialize pair, so the textual encoding is modeled at token granularity
(character-level lexing is out of scope). -/
inductive JsonToken where
  | lbrace
  | rbrace
  | lbrack
  | rbrack
  | comma
  | colon
  | tnull
  | tbool (b : Bool)
  | tnum (n : Int)
  | tstr (s : String)
deriving Repr, DecidableEq

mutual

/-- Modelled from the spec: `JSON.stringify` (§6 Serialize) — encodes a
plain structured value as a token sequence, following the value's own
insertion order for mapping keys. -/
def encodeVal : JsValue → List JsonToken
  | .null => [.tnull]
  | .bool b => [.tbool b]
  | .num n => [.tnum n]
  | .str s => [.tstr s]
  | .arr [] => [.lbrack, .rbrack]
  | .arr (x :: xs) => .lbrack :: (encodeVal x ++ encodeElemsTail xs ++ [.rbrack])
  | .obj [] => [.lbrace, .rbrace]
  | .obj ((k, v) :: fs) =>
    .lbrace :: .tstr k :: .colon :: (encodeVal v ++ encodeFieldsTail fs ++ [.rbrace])

/-- Comma-separated tail of an array encoding. -/
def encodeElemsTail : List JsValue → List JsonToken
  | [] => []
  | x :: xs => .comma :: (encodeVal x ++ encodeElemsTail xs)

/-- Comma-separated tail of an object encoding. -/
def encodeFieldsTail : List (String × JsValue) → List JsonToken
  | [] => []
  | (k, v) :: fs => .comma :: .tstr k :: .colon :: (encodeVal v ++ encodeFieldsTail fs)

end

mutual

/-- Modelled from the spec: the recursive-descent core of `JSON.parse`
(§6 Deserialize) — parses one value off the front of a token sequence,
returning it with the unconsumed remainder.  `fuel` bounds the recursion
depth; `none` models a `ParseError`. -/
def parseVal (fuel : Nat) (ts : List JsonToken) : Option (JsValue × List JsonToken) :=
  match ts with
  | .tnull :: r => some (.null, r)
  | .tbool b :: r => some (.bool b, r)
  | .tnum n :: r => some (.num n, r)
  | .tstr s :: r => some (.str s, r)
  | .lbrack :: r =>
    match fuel with
    | 0 => none
    | f + 1 =>
      match parseVal f r with
      | some (x, r1) =>
        match parseElemsTail f r1 with
        | some (xs, .rbrack :: r2) => some (.arr (x :: xs), r2)
        | _ => none
      | none =>
        match r with
        | .rbrack :: r2 => some (.arr [], r2)
        | _ => none
  | .lbrace :: r =>
    match fuel with
    | 0 => none
    | f + 1 =>
      match r with
      | .tstr k :: .colon :: r1 =>
        match parseVal f r1 with
        | some (v, r2) =>
          match parseFieldsTail f r2 with
          | some (fs, .rbrace :: r3) => some (.obj ((k, v) :: fs), r3)
          | _ => none
        | none => none
      | .rbrace :: r1 => some (.obj [], r1)
      | _ => none
  | _ => none

/-- Parses a comma-separated tail of array elements, stopping before the
first token that is not a comma. -/
def parseElemsTail (fuel : Nat) (ts : List JsonToken) : Option (List JsValue × List JsonToken) :=
  match ts with
  | .comma :: r =>
    match fuel with
    | 0 => none
    | f + 1 =>
      match parseVal f r with
      | some (x, r1) =>
        match parseElemsTail f r1 with
        | some (xs, r2) => some (x :: xs, r2)
        | none => none
      | none => none
  | _ => some ([], ts)

/-- Parses a comma-separated tail of object fields, stopping before the
first token that is not a comma. -/
def parseFieldsTail (fuel : Nat) (ts : List JsonToken) :
    Option (List (String × JsValue) × List JsonToken) :=
  match ts with
  | .comma :: .tstr k :: .colon :: r =>
    match fuel with
    | 0 => none
    | f + 1 =>
      match parseVal f r with
      | some (v, r1) =>
        match parseFieldsTail f r1 with
        | some (fs, r2) => some ((k, v) :: fs, r2)
        | none => none
      | none => none
  | _ => some ([], ts)

end

/-- `function getJSON(obj) { return JSON.stringify(obj); }`. -/
def getJSON (obj : JsValue) : List JsonToken :=
  encodeVal obj

/-- Modelled from the spec: `JSON.parse` (§6 Deserialize) — parses a
complete token sequence into a value, failing (`ParseError`, modeled as
`none`) on malformed or trailing input.  The input's own length bounds
the recursion depth. -/
def JSONparse (ts : List JsonToken) : Option JsValue :=
  match parseVal ts.length ts with
  | some (v, []) => some v
  | _ => none

/-- A value as `fromJSON` returns it.  A prototype is modeled as the list
of method names it defines (its behavioral-capability set, §6):
`rebound` is an object or array whose prototype was actually replaced, so
it exposes exactly the installed prototype's methods over its own field
values; `primitive` is a number, string or boolean that
`Object.setPrototypeOf` returned unchanged — it exposes none of the
requested prototype's methods. -/
inductive ProtoResult where
  | rebound (fields : JsValue) (proto : List String)
  | primitive (v : JsValue)

/-- Modelled from ES semantics of `Object.setPrototypeOf(O, proto)` (a
platform built-in, not repository code): it throws `TypeError` (modeled
as `none`) when `O` is `null`; it returns a number, string or boolean `O`
unchanged, without installing `proto` (primitives gain none of its
methods); only an object or array actually has its prototype replaced. -/
def setPrototypeOf (object : JsValue) (proto : List String) : Option ProtoResult :=
  match object with
  | .null => none
  | .num n => some (.primitive (.num n))
  | .str s => some (.primitive (.str s))
  | .bool b => some (.primitive (.bool b))
  | .arr xs => some (.rebound (.arr xs) proto)
  | .obj fs => some (.rebound (.obj fs) proto)

/-- `function fromJSON(proto, json)`: `JSON.parse` the text, then
`Object.setPrototypeOf(object, proto)` and return the result.  A parse
failure (`ParseError`) or a `TypeError` from `setPrototypeOf` propagates
(modeled as `none`). -/
def fromJSON (proto : List String) (json : List JsonToken) : Option ProtoResult :=
  match JSONparse json with
  | some object => setPrototypeOf object proto
  | none => none

/-! Helper lemmas. -/

/-- Token-level round-trip of the JSON codec: with enough fuel, parsing an
encoded value off the front of a token stream returns exactly that value
and leaves the rest untouched (and correspondingly for the comma-separated
tails of arrays and objects, when the encoding is followed by a closing
bracket or brace). -/
theorem parseVal_encode (fuel : Nat) :
    (∀ (v : JsValue) (rest : List JsonToken), (encodeVal v).length ≤ fuel →
      parseVal fuel (encodeVal v ++ rest) = some (v, rest)) ∧
    (∀ (xs : List JsValue) (c : JsonToken) (rest : List JsonToken),
      (encodeElemsTail xs).length ≤ fuel → (c = JsonToken.rbrack ∨ c = JsonToken.rbrace) →
      parseElemsTail fuel (encodeElemsTail xs ++ c :: rest) = some (xs, c :: rest)) ∧
    (∀ (fs : List (String × JsValue)) (c : JsonToken) (rest : List JsonToken),
      (encodeFieldsTail fs).length ≤ fuel → (c = JsonToken.rbrack ∨ c = JsonToken.rbrace) →
      parseFieldsTail fuel (encodeFieldsTail fs ++ c :: rest) = some (fs, c :: rest)) := by
  induction fuel using Nat.strong_induction_on with
  | _ fuel ih =>
    refine ⟨?_, ?_, ?_⟩
    · intro v rest hle
      match v with
      | .null => simp [encodeVal, parseVal]
      | .bool b => simp [encodeVal, parseVal]
      | .num n => simp [encodeVal, parseVal]
      | .str s => simp [encodeVal, parseVal]
      | .arr [] =>
        simp only [encodeVal, List.length_cons, List.length_nil] at hle
        obtain ⟨f, rfl⟩ : ∃ f, fuel = f + 1 := ⟨fuel - 1, by omega⟩
        simp [encodeVal, parseVal]
      | .arr (x :: xs) =>
        simp only [encodeVal, List.length_cons, List.length_append, List.length_singleton] at hle
        obtain ⟨f, rfl⟩ : ∃ f, fuel = f + 1 := ⟨fuel - 1, by omega⟩
        have hx := (ih f (by omega)).1 x (encodeElemsTail xs ++ JsonToken.rbrack :: rest) (by omega)
        have hxs := (ih f (by omega)).2.1 xs JsonToken.rbrack rest (by omega) (Or.inl rfl)
        simp only [encodeVal, List.cons_append, List.append_assoc, List.singleton_append]
        simp [parseVal, hx, hxs]
      | .obj [] =>
        simp only [encodeVal, List.length_cons, List.length_nil] at hle
        obtain ⟨f, rfl⟩ : ∃ f, fuel = f + 1 := ⟨fuel - 1, by omega⟩
        simp [encodeVal, parseVal]
      | .obj ((k, v) :: fs) =>
        simp only [encodeVal, List.length_cons, List.length_append, List.length_singleton] at hle
        obtain ⟨f, rfl⟩ : ∃ f, fuel = f + 1 := ⟨fuel - 1, by omega⟩
        have hv := (ih f (by omega)).1 v (encodeFieldsTail fs ++ JsonToken.rbrace :: rest) (by omega)
        have hfs := (ih f (by omega)).2.2 fs JsonToken.rbrace rest (by omega) (Or.inr rfl)
        simp only [encodeVal, List.cons_append, List.append_assoc, List.singleton_append]
        simp [parseVal, hv, hfs]
    · intro xs c rest hle hc
      match xs with
      | [] =>
        rcases hc with rfl | rfl <;> simp [encodeElemsTail, parseElemsTail]
      | x :: xs =>
        simp only [encodeElemsTail, List.length_cons, List.length_append] at hle
        obtain ⟨f, rfl⟩ : ∃ f, fuel = f + 1 := ⟨fuel - 1, by omega⟩
        have hx := (ih f (by omega)).1 x (encodeElemsTail xs ++ c :: rest) (by omega)
        have hxs := (ih f (by omega)).2.1 xs c rest (by omega) hc
        simp only [encodeElemsTail, List.cons_append, List.append_assoc]
        simp [parseElemsTail, hx, hxs]
    · intro fs c rest hle hc
      match fs with
      | [] =>
        rcases hc with rfl | rfl <;> simp [encodeFieldsTail, parseFieldsTail]
      | (k, v) :: fs =>
        simp only [encodeFieldsTail, List.length_cons, List.length_append] at hle
        obtain ⟨f, rfl⟩ : ∃ f, fuel = f + 1 := ⟨fuel - 1, by omega⟩
        have hv := (ih f (by omega)).1 v (encodeFieldsTail fs ++ c :: rest) (by omega)
        have hfs := (ih f (by omega)).2.2 fs c rest (by omega) hc
        simp only [encodeFieldsTail, List.cons_append, List.append_assoc]
        simp [parseFieldsTail, hv, hfs]

/-- The modeled platform pair is inverse-compatible, as §6 requires. -/
theorem JSONparse_getJSON (v : JsValue) : JSONparse (getJSON v) = some v := by
  unfold JSONparse getJSON
  have h := (parseVal_encode (encodeVal v).length).1 v [] le_rfl
  rw [List.append_nil] at h
  rw [h]

/-- A successful mutator call appends exactly its decorated fragment to the
category it writes and leaves every other category untouched. -/
theorem apply_ok_get (s s1 : Selector) (c : Call) (h : s.apply c = .ok s1) (k : SelectorKey) :
    s1.selectors.get k
      = s.selectors.get k ++ (if c.key = k then [specFragment c] else []) := by
  cases c with
  | element v =>
    simp only [Selector.apply, Selector.element] at h
    split at h
    · exact absurd h (by simp)
    · split at h
      · exact absurd h (by simp)
      · obtain rfl := Except.ok.inj h
        cases k <;> simp [Selectors.get, Call.key, specFragment]
  | id v =>
    simp only [Selector.apply, Selector.id] at h
    split at h
    · exact absurd h (by simp)
    · split at h
      · exact absurd h (by simp)
      · obtain rfl := Except.ok.inj h
        cases k <;> simp [Selectors.get, Call.key, specFragment]
  | cls v =>
    simp only [Selector.apply, Selector.cls] at h
    split at h
    · exact absurd h (by simp)
    · obtain rfl := Except.ok.inj h
      cases k <;> simp [Selectors.get, Call.key, specFragment]
  | attr v =>
    simp only [Selector.apply, Selector.attr] at h
    split at h
    · exact absurd h (by simp)
    · obtain rfl := Except.ok.inj h
      cases k <;> simp [Selectors.get, Call.key, specFragment]
  | pseudoClass v =>
    simp only [Selector.apply, Selector.pseudoClass] at h
    split at h
    · exact absurd h (by simp)
    · obtain rfl := Except.ok.inj h
      cases k <;> simp [Selectors.get, Call.key, specFragment]
  | pseudoElement v =>
    simp only [Selector.apply, Selector.pseudoElement] at h
    split at h
    · exact absurd h (by simp)
    · split at h
      · exact absurd h (by simp)
      · obtain rfl := Except.ok.inj h
        cases k <;> simp [Selectors.get, Call.key, specFragment]

theorem specCategory_cons (c : Call) (cs : List Call) (k : SelectorKey) :
    specCategory (c :: cs) k
      = (if c.key = k then [specFragment c] else []) ++ specCategory cs k := by
  simp only [specCategory, List.filter_cons]
  split
  · next hc => simp at hc; simp [hc]
  · next hc => simp at hc; simp [hc]

/-- No builder call ever writes the internal `combination` category. -/
theorem specCategory_combination (cs : List Call) : specCategory cs .combination = [] := by
  simp only [specCategory, List.map_eq_nil_iff]
  rw [List.filter_eq_nil_iff]
  intro c _
  cases c <;> simp [Call.key]

/-- After a successful run, each category holds its starting fragments
followed by the decorated fragments of the calls that wrote it, in call
order. -/
theorem runFrom_ok_get (cs : List Call) (s s' : Selector) (h : s.runFrom cs = .ok s')
    (k : SelectorKey) :
    s'.selectors.get k = s.selectors.get k ++ specCategory cs k := by
  induction cs generalizing s with
  | nil =>
    simp only [Selector.runFrom] at h
    obtain rfl := Except.ok.inj h
    simp [specCategory]
  | cons c cs ihc =>
    simp only [Selector.runFrom] at h
    cases happ : s.apply c with
    | error e => rw [happ] at h; exact absurd h (by simp)
    | ok s1 =>
      rw [happ] at h
      rw [specCategory_cons, ihc s1 h, apply_ok_get s s1 c happ k, List.append_assoc]

/-- A successful call preserves the singleton bound on the element list
(the duplicate check admits a push only into an empty element list). -/
theorem apply_ok_element_le (s s1 : Selector) (c : Call) (h : s.apply c = .ok s1)
    (hle : s.selectors.element.length ≤ 1) : s1.selectors.element.length ≤ 1 := by
  cases c with
  | element v =>
    simp only [Selector.apply, Selector.element] at h
    split at h
    · exact absurd h (by simp)
    · next hdup =>
      split at h
      · exact absurd h (by simp)
      · obtain rfl := Except.ok.inj h
        simp only [bne_iff_ne, ne_eq, not_not] at hdup
        simp [List.length_eq_zero.mp hdup]
  | id v =>
    have := apply_ok_get s s1 (.id v) h .element
    simp only [Selectors.get, Call.key] at this
    simp [this]; omega
  | cls v =>
    have := apply_ok_get s s1 (.cls v) h .element
    simp only [Selectors.get, Call.key] at this
    simp [this]; omega
  | attr v =>
    have := apply_ok_get s s1 (.attr v) h .element
    simp only [Selectors.get, Call.key] at this
    simp [this]; omega
  | pseudoClass v =>
    have := apply_ok_get s s1 (.pseudoClass v) h .element
    simp only [Selectors.get, Call.key] at this
    simp [this]; omega
  | pseudoElement v =>
    have := apply_ok_get s s1 (.pseudoElement v) h .element
    simp only [Selectors.get, Call.key] at this
    simp [this]; omega

theorem runFrom_ok_element_le (cs : List Call) (s s' : Selector) (h : s.runFrom cs = .ok s')
    (hle : s.selectors.element.length ≤ 1) : s'.selectors.element.length ≤ 1 := by
  induction cs generalizing s with
  | nil =>
    simp only [Selector.runFrom] at h
    obtain rfl := Except.ok.inj h
    exact hle
  | cons c cs ihc =>
    simp only [Selector.runFrom] at h
    cases happ : s.apply c with
    | error e => rw [happ] at h; exact absurd h (by simp)
    | ok s1 =>
      rw [happ] at h
      exact ihc s1 h (apply_ok_element_le s s1 c happ hle)

/-- The `reduce` in `stringify`, unfolded over the seven fragment lists. -/
theorem stringify_eq (s : Selector) :
    s.stringify = String.intercalate "," s.selectors.element
      ++ String.join s.selectors.id ++ String.join s.selectors.cls
      ++ String.join s.selectors.attr ++ String.join s.selectors.pseudoClass
      ++ String.join s.selectors.pseudoElement ++ String.join s.selectors.combination := rfl

/-- On lists of at most one string the comma-coercion of the first
accumulator is indistinguishable from a separator-free join. -/
theorem intercalate_comma_of_short (l : List String) (h : l.length ≤ 1) :
    String.intercalate "," l = String.join l := by
  match l with
  | [] => rfl
  | [a] => rfl
  | a :: b :: t => simp at h

theorem length_filter_bne_zero {α : Type} (p : α → Bool) (l : List α) :
    ((l.filter p).length != 0) = l.any p := by
  induction l with
  | nil => rfl
  | cons a t ihl =>
    rw [List.filter_cons, List.any_cons]
    cases hpa : p a <;> simp [hpa, ← ihl]

/-- On any state whose internal `combination` list is empty (every state a
client can reach), `checkOrder` computes exactly the spec's order
condition: some category of strictly greater canonical index already
holds at least one fragment. -/
theorem checkOrder_eq_spec (s : Selectors) (k : SelectorKey) (hcomb : s.combination = []) :
    Selector.checkOrder ⟨s⟩ k = specOrderViolation s k := by
  rcases s with ⟨e, i, c, a, pc, pe, comb⟩
  simp only at hcomb
  subst hcomb
  rw [Bool.eq_iff_iff]
  cases k <;>
    simp [Selector.checkOrder, Selectors.values, List.enum, List.enumFrom, specOrderViolation,
      canonicalKeys, Selectors.get, SelectorKey.index, length_filter_bne_zero]

/-! Claim theorems. -/

/-- C1 (counterexample): the claim "any later call that writes a category
strictly earlier than an occupied one raises OrderError, while writing the
same category is permitted" fails at a concrete input: after
`element('a').id('b')`, the call `element('c')` writes a category strictly
earlier than the occupied `id` category, yet it raises the duplicate error,
not the order error; and after `element('a')`, the same-category call
`element('b')` is not permitted either. -/
theorem c1_duplicate_preempts_order_counterexample :
    ((Selector.new.element "a" >>= fun s => s.id "b") >>= fun s => s.element "c")
      = .error (.duplicate, ⟨⟨["a"], ["#b"], [], [], [], [], []⟩⟩)
    ∧ (Selector.new.element "a" >>= fun s => s.element "b")
      = .error (.duplicate, ⟨⟨["a"], [], [], [], [], [], []⟩⟩)
    ∧ SelError.duplicate ≠ SelError.order :=
  ⟨by decide, by decide, by decide⟩

/-- C1 (amended): on every state whose internal `combination` list is
empty, (1) `checkOrder` fails exactly when some category of strictly
greater canonical index already holds at least one stored fragment;
(2) when the order condition holds for the category a call writes, the
call raises OrderError — unless the call writes a singleton category that
already holds a fragment, in which case the duplicate check runs first and
DuplicateError preempts; (3) when neither the order condition nor the
duplicate condition holds, the call succeeds (writing the same category or
a later one passes the order check). -/
theorem c1_order_check_amended (s : Selector) (c : Call) (k : SelectorKey)
    (hcomb : s.selectors.combination = []) :
    (s.checkOrder k = specOrderViolation s.selectors k)
    ∧ (specOrderViolation s.selectors c.key = true →
        s.apply c = .error ((if dupBlocked s.selectors c then SelError.duplicate
          else SelError.order), s))
    ∧ ((specOrderViolation s.selectors c.key = false ∧ dupBlocked s.selectors c = false) →
        (s.apply c).isOk = true) := by
  obtain ⟨sels⟩ := s
  simp only at hcomb
  refine ⟨checkOrder_eq_spec sels k hcomb, ?_, ?_⟩
  · intro hv
    have hco : Selector.checkOrder ⟨sels⟩ c.key = true := by
      rw [checkOrder_eq_spec sels c.key hcomb]; exact hv
    cases c <;>
      simp only [Call.key] at hco hv <;>
      simp only [Selector.apply, Selector.element, Selector.id, Selector.cls, Selector.attr,
        Selector.pseudoClass, Selector.pseudoElement, dupBlocked, hco, if_true] <;>
      split <;> simp_all
  · rintro ⟨hv, hd⟩
    have hco : Selector.checkOrder ⟨sels⟩ c.key = false := by
      rw [checkOrder_eq_spec sels c.key hcomb]; exact hv
    cases c <;>
      simp only [Call.key] at hco hv <;>
      simp_all [Selector.apply, Selector.element, Selector.id, Selector.cls, Selector.attr,
        Selector.pseudoClass, Selector.pseudoElement, dupBlocked, Except.isOk, Except.toBool]

/-- C1 (witness): instantiating the amended theorem on the state reached
by `class('x')` and the call `id('y')`: the order condition holds, the
duplicate rule does not, so the call raises OrderError. -/
theorem c1_order_check_amended_witness :
    (⟨⟨[], [], [".x"], [], [], [], []⟩⟩ : Selector).apply (Call.id "y")
      = .error (SelError.order, ⟨⟨[], [], [".x"], [], [], [], []⟩⟩) := by
  have h := c1_order_check_amended ⟨⟨[], [], [".x"], [], [], [], []⟩⟩ (Call.id "y") .id rfl
  exact (h.2.1 (by decide)).trans (by decide)

/-- C2: for any sequence of builder calls that runs without error from a
fresh builder, `stringify()` returns the concatenation, in canonical
category order with no separators, of all stored fragments — element
verbatim, id as `#value`, class as `.value`, attribute as `[value]`,
pseudo-class as `:value`, pseudo-element as `::value`. -/
theorem c2_stringify_renders_canonical_concat (cs : List Call) (s' : Selector)
    (h : Selector.new.runFrom cs = .ok s') :
    s'.stringify = specStringify cs := by
  have hget : ∀ k, s'.selectors.get k = specCategory cs k := by
    intro k
    have := runFrom_ok_get cs Selector.new s' h k
    rw [this]
    cases k <;> simp [Selector.new, Selectors.get]
  have hlen : s'.selectors.element.length ≤ 1 :=
    runFrom_ok_element_le cs Selector.new s' h (by simp [Selector.new])
  have he := hget .element
  have hi := hget .id
  have hc := hget .cls
  have ha := hget .attr
  have hpc := hget .pseudoClass
  have hpe := hget .pseudoElement
  have hcomb := hget .combination
  simp only [Selectors.get] at he hi hc ha hpc hpe hcomb
  rw [stringify_eq, intercalate_comma_of_short _ hlen, he, hi, hc, ha, hpc, hpe, hcomb,
    specCategory_combination]
  simp only [show String.join ([] : List String) = "" from rfl, String.append_empty,
    specStringify]

/-- C2 (witness): `id('main').class('container').class('editable')` runs
without error and its `stringify()` is `"#main.container.editable"`. -/
theorem c2_stringify_renders_canonical_concat_witness :
    Selector.new.runFrom [Call.id "main", Call.cls "container", Call.cls "editable"]
      = .ok ⟨⟨[], ["#main"], [".container", ".editable"], [], [], [], []⟩⟩
    ∧ (⟨⟨[], ["#main"], [".container", ".editable"], [], [], [], []⟩⟩ : Selector).stringify
      = "#main.container.editable" :=
  ⟨by decide, (c2_stringify_renders_canonical_concat
      [Call.id "main", Call.cls "container", Call.cls "editable"]
      ⟨⟨[], ["#main"], [".container", ".editable"], [], [], [], []⟩⟩ (by decide)).trans
    (by decide)⟩

/-- C3: `element`, `id` and `pseudoElement` raise DuplicateError whenever
their (singleton) category already holds a fragment, while `class`, `attr`
and `pseudoClass` have no duplicate restriction — the only error they can
ever raise is OrderError. -/
theorem c3_duplicate_rules :
    (∀ (s : Selector) (v : String), s.selectors.element ≠ [] →
      s.element v = .error (.duplicate, s))
    ∧ (∀ (s : Selector) (v : String), s.selectors.id ≠ [] →
      s.id v = .error (.duplicate, s))
    ∧ (∀ (s : Selector) (v : String), s.selectors.pseudoElement ≠ [] →
      s.pseudoElement v = .error (.duplicate, s))
    ∧ (∀ (s : Selector) (v : String) (e : SelError) (t : Selector),
      s.cls v = .error (e, t) → e = SelError.order)
    ∧ (∀ (s : Selector) (v : String) (e : SelError) (t : Selector),
      s.attr v = .error (e, t) → e = SelError.order)
    ∧ (∀ (s : Selector) (v : String) (e : SelError) (t : Selector),
      s.pseudoClass v = .error (e, t) → e = SelError.order) := by
  refine ⟨?_, ?_, ?_, ?_, ?_, ?_⟩
  · intro s v h
    simp [Selector.element, h]
  · intro s v h
    simp [Selector.id, h]
  · intro s v h
    simp [Selector.pseudoElement, h]
  · intro s v e t h
    simp only [Selector.cls] at h
    split at h <;> simp_all
  · intro s v e t h
    simp only [Selector.attr] at h
    split at h <;> simp_all
  · intro s v e t h
    simp only [Selector.pseudoClass] at h
    split at h <;> simp_all

/-- C3 (witness): each singleton category raises DuplicateError on its
second write, and a failing `class` call fails with OrderError. -/
theorem c3_duplicate_rules_witness :
    (⟨⟨["a"], [], [], [], [], [], []⟩⟩ : Selector).element "b"
      = .error (.duplicate, ⟨⟨["a"], [], [], [], [], [], []⟩⟩)
    ∧ (⟨⟨[], ["#a"], [], [], [], [], []⟩⟩ : Selector).id "b"
      = .error (.duplicate, ⟨⟨[], ["#a"], [], [], [], [], []⟩⟩)
    ∧ (⟨⟨[], [], [], [], [], ["::a"], []⟩⟩ : Selector).pseudoElement "b"
      = .error (.duplicate, ⟨⟨[], [], [], [], [], ["::a"], []⟩⟩)
    ∧ SelError.order = SelError.order :=
  ⟨c3_duplicate_rules.1 _ "b" (by decide), c3_duplicate_rules.2.1 _ "b" (by decide),
    c3_duplicate_rules.2.2.1 _ "b" (by decide),
    c3_duplicate_rules.2.2.2.1 ⟨⟨[], [], [], ["[x]"], [], [], []⟩⟩ "y" .order
      ⟨⟨[], [], [], ["[x]"], [], [], []⟩⟩ (by decide)⟩

/-- C4: for any operands exposing a defined `stringify()` and any
combinator string (no validation of the token), `combine` stores exactly
`left.stringify() + " " + combinator + " " + right.stringify()` in the
facade's single `result` slot, overwriting whatever was there, and the
returned facade's `stringify()` yields that stored string. -/
theorem c4_combine_stores_joined_render (b : CssSelectorBuilder) (l r : Stringifiable)
    (comb ls rs : String) (hl : l.stringify = some ls) (hr : r.stringify = some rs) :
    (b.combine l comb r).result = some (ls ++ " " ++ comb ++ " " ++ rs)
    ∧ (b.combine l comb r).stringify = some (ls ++ " " ++ comb ++ " " ++ rs) := by
  simp [CssSelectorBuilder.combine, CssSelectorBuilder.stringify, hl, hr, interpolate]

/-- C4 (witness): combining `div#main` and `table#data` with `"+"` stores
and renders `"div#main + table#data"`. -/
theorem c4_combine_stores_joined_render_witness :
    (cssSelectorBuilder.combine (.sel ⟨⟨["div"], ["#main"], [], [], [], [], []⟩⟩) "+"
        (.sel ⟨⟨["table"], ["#data"], [], [], [], [], []⟩⟩)).result
      = some ("div#main" ++ " " ++ "+" ++ " " ++ "table#data")
    ∧ (cssSelectorBuilder.combine (.sel ⟨⟨["div"], ["#main"], [], [], [], [], []⟩⟩) "+"
        (.sel ⟨⟨["table"], ["#data"], [], [], [], [], []⟩⟩)).stringify
      = some ("div#main" ++ " " ++ "+" ++ " " ++ "table#data") :=
  c4_combine_stores_joined_render cssSelectorBuilder _ _ "+" "div#main" "table#data"
    (by decide) (by decide)

/-- C5: a rejected mutator call leaves the builder's stored fragments
exactly as they were — every throw happens before the push, so the state
carried by the error is the receiver unchanged. -/
theorem c5_rejected_call_leaves_state_unchanged (s : Selector) (c : Call) (e : SelError)
    (t : Selector) (h : s.apply c = .error (e, t)) : t = s := by
  cases c <;>
    simp only [Selector.apply, Selector.element, Selector.id, Selector.cls, Selector.attr,
      Selector.pseudoClass, Selector.pseudoElement] at h <;>
    (repeat' split at h) <;> simp_all

/-- C5 (witness): the state after a rejected `id` call on the builder
reached by `class('a')` equals that builder's state. -/
theorem c5_rejected_call_leaves_state_unchanged_witness :
    (⟨⟨[], [], [".a"], [], [], [], []⟩⟩ : Selector) = ⟨⟨[], [], [".a"], [], [], [], []⟩⟩ :=
  c5_rejected_call_leaves_state_unchanged _ (Call.id "b") .order _ (by decide)

/-- C6 (counterexample): the claim quantifies over every plain structured
value, but at `x = null` the program throws — `Object.setPrototypeOf(null, P)`
is a `TypeError` — so no object is produced at all, and at the top-level
primitive `x = 5` the builtin returns the primitive unchanged, so the
result exposes none of `P`'s methods (it is not a prototype-rebound
object). -/
theorem c6_roundtrip_counterexample :
    fromJSON ["describe"] (getJSON .null) = none
    ∧ fromJSON ["describe"] (getJSON (.num 5)) = some (.primitive (.num 5))
    ∧ ProtoResult.primitive (.num 5) ≠ ProtoResult.rebound (.num 5) ["describe"] :=
  ⟨rfl, rfl, fun h => ProtoResult.noConfusion h⟩

/-- C6 (amended): `fromJSON(P, getJSON(x))` behaves exactly as
`Object.setPrototypeOf(x, P)` — field values always round-trip through
the serialized text; when `x` is a string-keyed mapping or an ordered
sequence the result is an object with `x`'s field values exposing the
methods defined on `P`; when `x` is `null` the call throws `TypeError`;
when `x` is a top-level number, string or boolean the value is returned
unchanged and gains none of `P`'s methods. -/
theorem c6_fromJSON_getJSON_roundtrip (x : JsValue) (P : List String) :
    fromJSON P (getJSON x) = setPrototypeOf x P
    ∧ (∀ fields, x = .obj fields → fromJSON P (getJSON x) = some (.rebound x P))
    ∧ (∀ xs, x = .arr xs → fromJSON P (getJSON x) = some (.rebound x P))
    ∧ (x = .null → fromJSON P (getJSON x) = none)
    ∧ (∀ n, x = .num n → fromJSON P (getJSON x) = some (.primitive x))
    ∧ (∀ s, x = .str s → fromJSON P (getJSON x) = some (.primitive x))
    ∧ (∀ b, x = .bool b → fromJSON P (getJSON x) = some (.primitive x)) := by
  refine ⟨by simp [fromJSON, JSONparse_getJSON], ?_, ?_, ?_, ?_, ?_, ?_⟩
  · rintro fields rfl
    simp [fromJSON, JSONparse_getJSON, setPrototypeOf]
  · rintro xs rfl
    simp [fromJSON, JSONparse_getJSON, setPrototypeOf]
  · rintro rfl
    simp [fromJSON, JSONparse_getJSON, setPrototypeOf]
  · rintro n rfl
    simp [fromJSON, JSONparse_getJSON, setPrototypeOf]
  · rintro s rfl
    simp [fromJSON, JSONparse_getJSON, setPrototypeOf]
  · rintro b rfl
    simp [fromJSON, JSONparse_getJSON, setPrototypeOf]

/-- C6 (witness): a two-field mapping round-trips into an object with the
same field values exposing the prototype's method. -/
theorem c6_fromJSON_getJSON_roundtrip_witness :
    fromJSON ["getArea"] (getJSON (.obj [("w", .num 10), ("h", .num 20)]))
      = some (.rebound (.obj [("w", .num 10), ("h", .num 20)]) ["getArea"]) :=
  (c6_fromJSON_getJSON_roundtrip (.obj [("w", .num 10), ("h", .num 20)]) ["getArea"]).2.1
    [("w", .num 10), ("h", .num 20)] rfl

/-- C7: `new Rectangle(w, h)` has `width` equal to `w`, `height` equal to
`h`, and `getArea()` returning `w * h`. -/
theorem c7_rectangle_fields_and_area (w h : Int) :
    (Rectangle.mk w h).width = w ∧ (Rectangle.mk w h).height = h
      ∧ (Rectangle.mk w h).getArea = w * h :=
  ⟨rfl, rfl, rfl⟩

/-- C8: two consecutive `stringify()` calls with no intervening mutation
return identical strings, and a `stringify()` call does not modify the
stored fragments (the post-call receiver equals the receiver). -/
theorem c8_stringify_idempotent_and_pure (s : Selector) :
    s.stringifyCall.2.stringifyCall.1 = s.stringifyCall.1 ∧ s.stringifyCall.2 = s :=
  ⟨rfl, rfl⟩

/-- C9: calling `stringify()` on the facade before any `combine` returns
the absent-result value (`undefined`, modeled as `none`) and raises no
error — the facade's `stringify` is a total read of its `result` slot. -/
theorem c9_facade_stringify_before_combine :
    cssSelectorBuilder.stringify = none
    ∧ ∀ b : CssSelectorBuilder, b.stringify = b.result :=
  ⟨rfl, fun _ => rfl⟩

/-- C10: when one operand of `combine` is the facade itself holding a
previously combined string `r`, both operands are rendered before the
single shared slot is overwritten, so the new stored result joins the
other operand's rendering with `r` by the combinator — the inner result is
never clobbered before being read. -/
theorem c10_nested_combine_reads_before_overwrite (b : CssSelectorBuilder) (r : String)
    (l : Stringifiable) (comb : String) (hb : b.result = some r) :
    (b.combine l comb (.facade b)).result
      = some (interpolate l.stringify ++ " " ++ comb ++ " " ++ r)
    ∧ (b.combine (.facade b) comb l).result
      = some (r ++ " " ++ comb ++ " " ++ interpolate l.stringify) := by
  constructor <;> simp [CssSelectorBuilder.combine, Stringifiable.stringify, hb, interpolate]

/-- C10 (witness): the facade holding the combined
`"tr:nth-of-type(even)   td:nth-of-type(even)"` passed as right operand of
a further `combine` with `table#data` and `"~"` yields the correctly
nested result. -/
theorem c10_nested_combine_reads_before_overwrite_witness :
    ((cssSelectorBuilder.combine (.sel ⟨⟨["tr"], [], [], [], [":nth-of-type(even)"], [], []⟩⟩)
        " " (.sel ⟨⟨["td"], [], [], [], [":nth-of-type(even)"], [], []⟩⟩)).combine
      (.sel ⟨⟨["table"], ["#data"], [], [], [], [], []⟩⟩) "~"
      (.facade (cssSelectorBuilder.combine
        (.sel ⟨⟨["tr"], [], [], [], [":nth-of-type(even)"], [], []⟩⟩)
        " " (.sel ⟨⟨["td"], [], [], [], [":nth-of-type(even)"], [], []⟩⟩)))).result
    = some (interpolate (Stringifiable.stringify
        (.sel ⟨⟨["table"], ["#data"], [], [], [], [], []⟩⟩)) ++ " " ++ "~" ++ " "
        ++ "tr:nth-of-type(even)   td:nth-of-type(even)") := by
  have h := c10_nested_combine_reads_before_overwrite (cssSelectorBuilder.combine
      (.sel ⟨⟨["tr"], [], [], [], [":nth-of-type(even)"], [], []⟩⟩)
      " " (.sel ⟨⟨["td"], [], [], [], [":nth-of-type(even)"], [], []⟩⟩))
    "tr:nth-of-type(even)   td:nth-of-type(even)"
    (.sel ⟨⟨["table"], ["#data"], [], [], [], [], []⟩⟩) "~" (by decide)
  exact h.1

end ObjectsTasks
